import Mathlib

/-!
Verification of the cymem specification.

The repository ships two kinds of code: the allocation-tracking core
(an arena, called Pool in the repository, and a reference-counted
pointer wrapper, called Address) and the build script `setup.py`.
Only `setup.py` is present under `src/`; the core is modelled from the
specification, definition by definition, and is marked as such below.

Machine memory is embedded as an explicit platform-allocator state
(a finite map from addresses to byte contents plus a capacity bound);
the RawAllocation primitive, the Arena and the TrackedPointer are
state-passing functions over that state.  An operation that can fail
returns its error through an `Except` channel and, on failure, hands
back the state it was given, so all-or-nothing behaviour is a provable
property of each definition rather than an ambient assumption.
-/

/-- Modelled from the spec: the error taxonomy of section 7
(OutOfMemory, InvalidAddress and the contract violations
AlreadyAllocated and DoubleRelease). -/
inductive MemError where
  | outOfMemory
  | invalidAddress
  | alreadyAllocated
  | doubleRelease
deriving DecidableEq, Repr

/-- Modelled from the spec: the state of the platform allocator behind
the RawAllocation primitive, which is not under `src/`.  `blocks` maps
each live non-null address to its zero-initialised byte contents,
`nextAddr` is the next fresh address (null is 0, so fresh addresses
start at 1), `capacity` bounds the total bytes the platform can hand
out (so OutOfMemory is reachable), and `freeLog` records every
non-null address passed to `release`, newest first, so that
"freed exactly once" is expressible. -/
structure Heap where
  blocks : List (Nat × List Nat)
  nextAddr : Nat
  capacity : Nat
  freeLog : List Nat
deriving DecidableEq, Repr

/-- A freshly started platform allocator with the given capacity. -/
def Heap.init (capacity : Nat) : Heap :=
  ⟨[], 1, capacity, []⟩

/-- Total number of live bytes currently handed out. -/
def Heap.totalBytes (h : Heap) : Nat :=
  (h.blocks.map (fun p => p.2.length)).sum

/-- Modelled from the spec: the RawAllocation primitive `allocate`
(section 4.1).  Requests `count * element_size` zero-initialised bytes;
fails with a null return (here `none`) only for a nonzero request the
platform cannot satisfy; a zero-byte request never faults. -/
def Heap.alloc (h : Heap) (count element_size : Nat) : Option (Heap × Nat) :=
  let size := count * element_size
  if 0 < size ∧ h.capacity < h.totalBytes + size then
    none
  else
    some ({ h with
            blocks := (h.nextAddr, List.replicate size 0) :: h.blocks,
            nextAddr := h.nextAddr + 1 },
          h.nextAddr)

/-- Modelled from the spec: the RawAllocation primitive `resize`
(section 4.1).  Grows or shrinks the block at `addr` to
`count * element_size` bytes, preserving content up to the smaller of
the old and new sizes and zero-filling newly added bytes; the block may
be relocated (here it always is, to a fresh address); on failure the
input heap is handed back untouched. -/
def Heap.resize (h : Heap) (addr count element_size : Nat) : Option (Heap × Nat) :=
  match List.lookup addr h.blocks with
  | none => none
  | some old =>
      let newSize := count * element_size
      if 0 < newSize ∧ h.capacity < h.totalBytes - old.length + newSize then
        none
      else
        some ({ h with
                blocks := (h.nextAddr, old.take newSize ++
                             List.replicate (newSize - old.length) 0) ::
                           h.blocks.filter (fun p => p.1 != addr),
                nextAddr := h.nextAddr + 1 },
              h.nextAddr)

/-- Modelled from the spec: the RawAllocation primitive `release`
(section 4.1).  Releasing the null address is a safe no-op; releasing a
non-null address drops its block and is recorded in the free log. -/
def Heap.release (h : Heap) (addr : Nat) : Heap :=
  if addr = 0 then h
  else { h with
         blocks := h.blocks.filter (fun p => p.1 != addr),
         freeLog := addr :: h.freeLog }

/-- Modelled from the spec: the Arena data model (section 3): a tracked
set of (address, size) entries plus a running total of bytes allocated
through it. -/
structure Arena where
  tracked : List (Nat × Nat)
  total : Nat
deriving DecidableEq, Repr

/-- Modelled from the spec: `Arena.new()` returns an empty arena with
zero tracked bytes. -/
def Arena.new : Arena := ⟨[], 0⟩

/-- Modelled from the spec: `size()` is the count of currently tracked
addresses. -/
def Arena.size (a : Arena) : Nat := a.tracked.length

/-- Modelled from the spec: `bytes_allocated()` is the running total. -/
def Arena.bytes_allocated (a : Arena) : Nat := a.total

/-- Modelled from the spec: `Arena.allocate` (section 4.2).  Delegates
to the primitive; on success records (address, count*element_size) and
adds the size to the running total; on failure propagates OutOfMemory
and records nothing (the input heap and arena are handed back). -/
def Arena.allocate (h : Heap) (a : Arena) (count element_size : Nat) :
    Heap × Arena × Except MemError Nat :=
  match Heap.alloc h count element_size with
  | none => (h, a, Except.error MemError.outOfMemory)
  | some (h', addr) =>
      (h',
       ⟨(addr, count * element_size) :: a.tracked,
        a.total + count * element_size⟩,
       Except.ok addr)

/-- Modelled from the spec: `Arena.resize` (section 4.2).  Requires the
address to be currently tracked (else InvalidAddress); delegates to the
primitive; on success replaces the old entry by the new address with
the new size and adjusts the running total by the delta; on failure the
entry is left unchanged and OutOfMemory propagates. -/
def Arena.resize (h : Heap) (a : Arena) (addr count element_size : Nat) :
    Heap × Arena × Except MemError Nat :=
  match List.lookup addr a.tracked with
  | none => (h, a, Except.error MemError.invalidAddress)
  | some oldSize =>
      match Heap.resize h addr count element_size with
      | none => (h, a, Except.error MemError.outOfMemory)
      | some (h', newAddr) =>
          (h',
           ⟨(newAddr, count * element_size) ::
              a.tracked.filter (fun p => p.1 != addr),
            a.total - oldSize + count * element_size⟩,
           Except.ok newAddr)

/-- Modelled from the spec: Arena teardown / `release_all()`
(section 4.2).  Frees every tracked address via the primitive, then
clears the set and zeroes the total. -/
def Arena.release_all (h : Heap) (a : Arena) : Heap × Arena :=
  (a.tracked.foldl (fun hh p => Heap.release hh p.1) h, ⟨[], 0⟩)

/-- Run a list of allocation requests (count, element_size) against an
arena, threading the heap; a failed call leaves the state unchanged. -/
def Arena.runAllocs : Heap → Arena → List (Nat × Nat) → Heap × Arena
  | h, a, [] => (h, a)
  | h, a, r :: rest =>
      let t := Arena.allocate h a r.1 r.2
      Arena.runAllocs t.1 t.2.1 rest

/-- The sublist of requests whose allocation call succeeds, in order. -/
def Arena.okRequests : Heap → Arena → List (Nat × Nat) → List (Nat × Nat)
  | _, _, [] => []
  | h, a, r :: rest =>
      let t := Arena.allocate h a r.1 r.2
      match t.2.2 with
      | Except.ok _ => r :: Arena.okRequests t.1 t.2.1 rest
      | Except.error _ => Arena.okRequests t.1 t.2.1 rest

/-- Total requested bytes of a list of requests. -/
def requestBytes (l : List (Nat × Nat)) : Nat :=
  (l.map (fun r => r.1 * r.2)).sum

theorem Arena.runAllocs_counts (reqs : List (Nat × Nat)) :
    ∀ h a,
      Arena.size (Arena.runAllocs h a reqs).2 =
        Arena.size a + (Arena.okRequests h a reqs).length ∧
      Arena.bytes_allocated (Arena.runAllocs h a reqs).2 =
        Arena.bytes_allocated a + requestBytes (Arena.okRequests h a reqs) := by
  induction reqs with
  | nil => intro h a; simp [Arena.runAllocs, Arena.okRequests, requestBytes]
  | cons r rest ih =>
      intro h a
      rcases hA : Heap.alloc h r.1 r.2 with _ | ⟨h', addr⟩
      · simpa [Arena.runAllocs, Arena.okRequests, Arena.allocate, hA] using
          ih h a
      · have := ih h' ⟨(addr, r.1 * r.2) :: a.tracked, a.total + r.1 * r.2⟩
        simp only [Arena.runAllocs, Arena.okRequests, Arena.allocate, hA] at *
        simp only [requestBytes, List.map_cons, List.sum_cons] at *
        constructor
        · simp only [Arena.size, List.length_cons] at *
          omega
        · simp only [Arena.bytes_allocated] at *
          omega

/-- Claim C1: for every sequence of allocate calls performed on a single
Arena, after the sequence `size()` equals the number of allocate calls
that succeeded, and `bytes_allocated()` equals the sum of the requested
byte sizes (count * element_size) of exactly the successful calls. -/
theorem arena_allocate_sequence_accounting (h : Heap) (reqs : List (Nat × Nat)) :
    Arena.size (Arena.runAllocs h Arena.new reqs).2 =
      (Arena.okRequests h Arena.new reqs).length ∧
    Arena.bytes_allocated (Arena.runAllocs h Arena.new reqs).2 =
      requestBytes (Arena.okRequests h Arena.new reqs) := by
  have := Arena.runAllocs_counts reqs h Arena.new
  simpa [Arena.new, Arena.size, Arena.bytes_allocated] using this

/-- Claim C2: after one `release_all()` the arena satisfies
`size() == 0` and `bytes_allocated() == 0`, and a second consecutive
`release_all()` is a no-op: it returns the state it was given unchanged
(in particular the free log does not grow, so no address is ever freed
a second time), and it cannot fault since it is a total operation. -/
theorem arena_release_all_idempotent (h : Heap) (a : Arena) :
    Arena.size (Arena.release_all h a).2 = 0 ∧
    Arena.bytes_allocated (Arena.release_all h a).2 = 0 ∧
    Arena.release_all (Arena.release_all h a).1 (Arena.release_all h a).2 =
      Arena.release_all h a ∧
    (Arena.release_all (Arena.release_all h a).1
        (Arena.release_all h a).2).1.freeLog =
      (Arena.release_all h a).1.freeLog := by
  exact ⟨rfl, rfl, rfl, rfl⟩

/-- Modelled from the spec: the TrackedPointer data model (section 3),
the Address-equivalent wrapper, which is not under `src/`: at most one
raw allocation (`addr`, 0 meaning null) plus a reference count. -/
structure TrackedPointer where
  addr : Nat
  count : Nat
deriving DecidableEq, Repr

/-- Modelled from the spec: `TrackedPointer.new()` returns a pointer
with count 0 and null address. -/
def TrackedPointer.new : TrackedPointer := ⟨0, 0⟩

/-- Modelled from the spec: `is_null()` is true iff the address is
null. -/
def TrackedPointer.is_null (p : TrackedPointer) : Bool :=
  p.addr == 0

/-- Modelled from the spec: `TrackedPointer.allocate` (section 4.3).
If the address is null, allocates via the primitive, sets the address
and sets the count to 1; if the address is already non-null this is a
contract violation and fails with AlreadyAllocated; on any failure the
input state is handed back untouched. -/
def TrackedPointer.allocate (h : Heap) (p : TrackedPointer)
    (count element_size : Nat) :
    Heap × TrackedPointer × Except MemError Unit :=
  if p.addr ≠ 0 then (h, p, Except.error MemError.alreadyAllocated)
  else
    match Heap.alloc h count element_size with
    | none => (h, p, Except.error MemError.outOfMemory)
    | some (h', a) => (h', ⟨a, 1⟩, Except.ok ())

/-- Modelled from the spec: `TrackedPointer.resize` (section 4.3).
Requires count > 0 (else a contract violation, surfaced as
InvalidAddress); delegates to the primitive on the current address,
replacing it with the returned address; failure propagates OutOfMemory
and leaves the existing allocation untouched. -/
def TrackedPointer.resize (h : Heap) (p : TrackedPointer)
    (count element_size : Nat) :
    Heap × TrackedPointer × Except MemError Unit :=
  if p.count = 0 then (h, p, Except.error MemError.invalidAddress)
  else
    match Heap.resize h p.addr count element_size with
    | none => (h, p, Except.error MemError.outOfMemory)
    | some (h', a) => (h', ⟨a, p.count⟩, Except.ok ())

/-- Modelled from the spec: `increment_reference()` (section 4.3).
Requires count > 0 (else a contract violation, surfaced as
InvalidAddress); adds one to the count. -/
def TrackedPointer.increment_reference (p : TrackedPointer) :
    TrackedPointer × Except MemError Unit :=
  if p.count = 0 then (p, Except.error MemError.invalidAddress)
  else (⟨p.addr, p.count + 1⟩, Except.ok ())

/-- Modelled from the spec: `decrement_reference()` (section 4.3).
Decrementing an already-zero count fails with DoubleRelease and does
nothing; otherwise the count drops by one, and when it reaches 0 the
address is released via the primitive and set to null. -/
def TrackedPointer.decrement_reference (h : Heap) (p : TrackedPointer) :
    Heap × TrackedPointer × Except MemError Unit :=
  if p.count = 0 then (h, p, Except.error MemError.doubleRelease)
  else if p.count = 1 then (Heap.release h p.addr, ⟨0, 0⟩, Except.ok ())
  else (h, ⟨p.addr, p.count - 1⟩, Except.ok ())

/-- The pointer state after n increment_reference calls. -/
def TrackedPointer.incN (p : TrackedPointer) : Nat → TrackedPointer
  | 0 => p
  | Nat.succ k => TrackedPointer.incN (TrackedPointer.increment_reference p).1 k

/-- The heap and pointer state after n decrement_reference calls. -/
def TrackedPointer.decN (h : Heap) (p : TrackedPointer) :
    Nat → Heap × TrackedPointer
  | 0 => (h, p)
  | Nat.succ k =>
      let t := TrackedPointer.decrement_reference h p
      TrackedPointer.decN t.1 t.2.1 k

theorem TrackedPointer.incN_live (a : Nat) :
    ∀ n c, 0 < c → TrackedPointer.incN ⟨a, c⟩ n = ⟨a, c + n⟩ := by
  intro n
  induction n with
  | zero => intro c hc; simp [TrackedPointer.incN]
  | succ k ih =>
      intro c hc
      have hc0 : c ≠ 0 := Nat.pos_iff_ne_zero.mp hc
      simp only [TrackedPointer.incN, TrackedPointer.increment_reference, hc0,
        if_false]
      rw [ih (c + 1) (Nat.succ_pos c)]
      congr 1
      omega

theorem TrackedPointer.decN_succ (h : Heap) (p : TrackedPointer) (k : Nat) :
    TrackedPointer.decN h p (k + 1) =
      TrackedPointer.decN (TrackedPointer.decrement_reference h p).1
        (TrackedPointer.decrement_reference h p).2.1 k := rfl

theorem TrackedPointer.decN_drain (a : Nat) :
    ∀ n h, TrackedPointer.decN h ⟨a, n + 1⟩ (n + 1) = (Heap.release h a, ⟨0, 0⟩) := by
  intro n
  induction n with
  | zero =>
      intro h
      simp [TrackedPointer.decN, TrackedPointer.decN_succ,
        TrackedPointer.decrement_reference]
  | succ k ih =>
      intro h
      have h1 : k + 1 + 1 ≠ 0 := by omega
      have h2 : k + 1 + 1 ≠ 1 := by omega
      rw [TrackedPointer.decN_succ]
      simp only [TrackedPointer.decrement_reference, h1, h2, if_false]
      simpa using ih h

/-- Claim C3: a TrackedPointer is null immediately after `new()`, is
non-null after a successful allocate, returns to null after n
increment_reference calls followed by n + 1 decrement_reference calls
— its address having been released exactly once — and one further
decrement_reference call fails with DoubleRelease and performs no
additional free (the heap, and hence the free log, is unchanged). -/
theorem trackedPointer_lifecycle (h h' : Heap) (p : TrackedPointer)
    (c s n : Nat) (hna : 0 < h.nextAddr)
    (halloc : TrackedPointer.allocate h TrackedPointer.new c s =
      (h', p, Except.ok ())) :
    TrackedPointer.is_null TrackedPointer.new = true ∧
    TrackedPointer.is_null p = false ∧
    TrackedPointer.is_null
      (TrackedPointer.decN h' (TrackedPointer.incN p n) (n + 1)).2 = true ∧
    (TrackedPointer.decN h' (TrackedPointer.incN p n) (n + 1)).1.freeLog.count
        p.addr =
      h'.freeLog.count p.addr + 1 ∧
    TrackedPointer.decrement_reference
        (TrackedPointer.decN h' (TrackedPointer.incN p n) (n + 1)).1
        (TrackedPointer.decN h' (TrackedPointer.incN p n) (n + 1)).2 =
      ((TrackedPointer.decN h' (TrackedPointer.incN p n) (n + 1)).1,
       (TrackedPointer.decN h' (TrackedPointer.incN p n) (n + 1)).2,
       Except.error MemError.doubleRelease) := by
  have hpv : p = ⟨h.nextAddr, 1⟩ := by
    rcases hA : Heap.alloc h c s with _ | ⟨h2, a2⟩
    · rw [TrackedPointer.allocate] at halloc
      simp [TrackedPointer.new, hA] at halloc
    · rw [TrackedPointer.allocate] at halloc
      simp only [TrackedPointer.new, hA, ne_eq, not_true_eq_false, if_false,
        Prod.mk.injEq] at halloc
      simp only [Heap.alloc] at hA
      split at hA
      · exact absurd hA (by simp)
      · simp only [Option.some.injEq, Prod.mk.injEq] at hA
        rw [hA.2]
        exact halloc.2.1.symm
  have haddr : p.addr = h.nextAddr := by rw [hpv]
  have haddr0 : p.addr ≠ 0 := by
    rw [haddr]; omega
  have hinc : TrackedPointer.incN p n = ⟨p.addr, 1 + n⟩ := by
    have := TrackedPointer.incN_live p.addr n 1 (by omega)
    rw [hpv] at this ⊢
    simpa using this
  have hdec : TrackedPointer.decN h' (TrackedPointer.incN p n) (n + 1) =
      (Heap.release h' p.addr, ⟨0, 0⟩) := by
    rw [hinc]
    have := TrackedPointer.decN_drain p.addr n h'
    simpa [Nat.add_comm 1 n] using this
  refine ⟨rfl, ?_, ?_, ?_, ?_⟩
  · simp [TrackedPointer.is_null, haddr0]
  · rw [hdec]; rfl
  · rw [hdec]
    simp [Heap.release, haddr0]
  · rw [hdec]
    simp [TrackedPointer.decrement_reference]

/-- Witness for C3: allocator of capacity 100, one element of 8 bytes,
two extra references taken and three releases. -/
theorem trackedPointer_lifecycle_witness :
    (0 < (Heap.init 100).nextAddr ∧
     TrackedPointer.allocate (Heap.init 100) TrackedPointer.new 1 8 =
       (⟨[(1, List.replicate 8 0)], 2, 100, []⟩, ⟨1, 1⟩, Except.ok ())) ∧
    TrackedPointer.is_null TrackedPointer.new = true ∧
    TrackedPointer.is_null (⟨1, 1⟩ : TrackedPointer) = false ∧
    TrackedPointer.is_null
      (TrackedPointer.decN (⟨[(1, List.replicate 8 0)], 2, 100, []⟩ : Heap)
        (TrackedPointer.incN ⟨1, 1⟩ 2) (2 + 1)).2 = true ∧
    (TrackedPointer.decN (⟨[(1, List.replicate 8 0)], 2, 100, []⟩ : Heap)
        (TrackedPointer.incN ⟨1, 1⟩ 2) (2 + 1)).1.freeLog.count
        (⟨1, 1⟩ : TrackedPointer).addr =
      (⟨[(1, List.replicate 8 0)], 2, 100, []⟩ : Heap).freeLog.count
        (⟨1, 1⟩ : TrackedPointer).addr + 1 ∧
    TrackedPointer.decrement_reference
        (TrackedPointer.decN (⟨[(1, List.replicate 8 0)], 2, 100, []⟩ : Heap)
          (TrackedPointer.incN ⟨1, 1⟩ 2) (2 + 1)).1
        (TrackedPointer.decN (⟨[(1, List.replicate 8 0)], 2, 100, []⟩ : Heap)
          (TrackedPointer.incN ⟨1, 1⟩ 2) (2 + 1)).2 =
      ((TrackedPointer.decN (⟨[(1, List.replicate 8 0)], 2, 100, []⟩ : Heap)
          (TrackedPointer.incN ⟨1, 1⟩ 2) (2 + 1)).1,
       (TrackedPointer.decN (⟨[(1, List.replicate 8 0)], 2, 100, []⟩ : Heap)
          (TrackedPointer.incN ⟨1, 1⟩ 2) (2 + 1)).2,
       Except.error MemError.doubleRelease) :=
  ⟨⟨Nat.one_pos, rfl⟩,
   trackedPointer_lifecycle (Heap.init 100)
     ⟨[(1, List.replicate 8 0)], 2, 100, []⟩ ⟨1, 1⟩ 1 8 2 Nat.one_pos rfl⟩

/-- A successful primitive allocation returns the fresh address and
advances the fresh-address counter. -/
theorem Heap.alloc_some {h : Heap} {c s : Nat} {h2 : Heap} {a2 : Nat}
    (hA : Heap.alloc h c s = some (h2, a2)) :
    h2.nextAddr = h.nextAddr + 1 ∧ a2 = h.nextAddr := by
  simp only [Heap.alloc] at hA
  split at hA
  · simp at hA
  · simp only [Option.some.injEq, Prod.mk.injEq] at hA
    rcases hA with ⟨hh, ha⟩
    constructor
    · rw [← hh]
    · rw [← ha]

/-- A successful primitive resize returns the fresh address and
advances the fresh-address counter. -/
theorem Heap.resize_some {h : Heap} {addr c s : Nat} {h2 : Heap} {a2 : Nat}
    (hA : Heap.resize h addr c s = some (h2, a2)) :
    h2.nextAddr = h.nextAddr + 1 ∧ a2 = h.nextAddr := by
  simp only [Heap.resize] at hA
  split at hA
  · simp at hA
  · split at hA
    · simp at hA
    · simp only [Option.some.injEq, Prod.mk.injEq] at hA
      rcases hA with ⟨hh, ha⟩
      constructor
      · rw [← hh]
      · rw [← ha]

/-- Releasing never changes the fresh-address counter. -/
theorem Heap.release_nextAddr (h : Heap) (a : Nat) :
    (Heap.release h a).nextAddr = h.nextAddr := by
  rw [Heap.release]
  split <;> rfl

/-- The TrackedPointer states reachable through the public operations
new, allocate, resize, increment_reference and decrement_reference,
threading the platform-allocator state; failed operations hand the
state back unchanged, so they are covered as well. -/
inductive TPReach : Heap → TrackedPointer → Prop
  | init : ∀ cap, TPReach (Heap.init cap) TrackedPointer.new
  | alloc : ∀ h p c s, TPReach h p →
      TPReach (TrackedPointer.allocate h p c s).1
        (TrackedPointer.allocate h p c s).2.1
  | res : ∀ h p c s, TPReach h p →
      TPReach (TrackedPointer.resize h p c s).1
        (TrackedPointer.resize h p c s).2.1
  | inc : ∀ h p, TPReach h p →
      TPReach h (TrackedPointer.increment_reference p).1
  | dec : ∀ h p, TPReach h p →
      TPReach (TrackedPointer.decrement_reference h p).1
        (TrackedPointer.decrement_reference h p).2.1

theorem TPReach.invariant_aux {h : Heap} {p : TrackedPointer}
    (hr : TPReach h p) : 0 < h.nextAddr ∧ (0 < p.count ↔ p.addr ≠ 0) := by
  induction hr with
  | init cap => simp [Heap.init, TrackedPointer.new]
  | alloc h p c s hr ih =>
      by_cases ha : p.addr ≠ 0
      · rw [TrackedPointer.allocate, if_pos ha]
        exact ih
      · rw [TrackedPointer.allocate, if_neg ha]
        obtain ⟨ih1, ih2⟩ := ih
        rcases hA : Heap.alloc h c s with _ | ⟨h2, a2⟩
        · exact ⟨ih1, ih2⟩
        · rcases Heap.alloc_some hA with ⟨hn, ha2⟩
          refine ⟨?_, ?_⟩
          · show 0 < h2.nextAddr
            omega
          · show 0 < 1 ↔ a2 ≠ 0
            omega
  | res h p c s hr ih =>
      by_cases hc : p.count = 0
      · rw [TrackedPointer.resize, if_pos hc]
        exact ih
      · rw [TrackedPointer.resize, if_neg hc]
        obtain ⟨ih1, ih2⟩ := ih
        rcases hA : Heap.resize h p.addr c s with _ | ⟨h2, a2⟩
        · exact ⟨ih1, ih2⟩
        · rcases Heap.resize_some hA with ⟨hn, ha2⟩
          refine ⟨?_, ?_⟩
          · show 0 < h2.nextAddr
            omega
          · show 0 < p.count ↔ a2 ≠ 0
            omega
  | inc h p hr ih =>
      obtain ⟨ih1, ih2⟩ := ih
      by_cases hc : p.count = 0
      · rw [TrackedPointer.increment_reference, if_pos hc]
        exact ⟨ih1, ih2⟩
      · rw [TrackedPointer.increment_reference, if_neg hc]
        refine ⟨ih1, ?_⟩
        show 0 < p.count + 1 ↔ p.addr ≠ 0
        omega
  | dec h p hr ih =>
      obtain ⟨ih1, ih2⟩ := ih
      by_cases h0 : p.count = 0
      · rw [TrackedPointer.decrement_reference, if_pos h0]
        exact ⟨ih1, ih2⟩
      · by_cases h1 : p.count = 1
        · rw [TrackedPointer.decrement_reference, if_neg h0, if_pos h1]
          refine ⟨?_, ?_⟩
          · show 0 < (Heap.release h p.addr).nextAddr
            rw [Heap.release_nextAddr]
            exact ih1
          · show 0 < 0 ↔ (0 : Nat) ≠ 0
            omega
        · rw [TrackedPointer.decrement_reference, if_neg h0, if_neg h1]
          refine ⟨ih1, ?_⟩
          show 0 < p.count - 1 ↔ p.addr ≠ 0
          omega

/-- Claim C4: every TrackedPointer state reachable through the public
operations satisfies the invariant: reference count > 0 iff the address
is non-null, and reference count = 0 iff the address is null. -/
theorem trackedPointer_reachable_invariant (h : Heap) (p : TrackedPointer)
    (hr : TPReach h p) :
    (0 < p.count ↔ p.addr ≠ 0) ∧ (p.count = 0 ↔ p.addr = 0) := by
  obtain ⟨-, h2⟩ := TPReach.invariant_aux hr
  exact ⟨h2, by omega⟩

/-- Witness for C4 at the freshly created pointer. -/
theorem trackedPointer_reachable_invariant_witness :
    (0 < TrackedPointer.new.count ↔ TrackedPointer.new.addr ≠ 0) ∧
    (TrackedPointer.new.count = 0 ↔ TrackedPointer.new.addr = 0) :=
  trackedPointer_reachable_invariant (Heap.init 100) TrackedPointer.new
    (TPReach.init 100)

/-- Claim C5: a successful resize of an existing allocation from
old_size to new_size bytes leaves the first min(old_size, new_size)
bytes of content unchanged and zero-fills every byte past the old size;
on failure the resize returns nothing and the original block is still
looked up unchanged at its address in the untouched input heap. -/
theorem heap_resize_preserves_content (h : Heap) (addr c s : Nat)
    (old : List Nat) (hold : List.lookup addr h.blocks = some old) :
    (∀ h2 a2, Heap.resize h addr c s = some (h2, a2) →
      ∃ newC, List.lookup a2 h2.blocks = some newC ∧
        newC.length = c * s ∧
        (∀ i, i < min old.length (c * s) → newC[i]? = old[i]?) ∧
        (∀ i, old.length ≤ i → i < c * s → newC[i]? = some 0)) ∧
    (Heap.resize h addr c s = none →
      List.lookup addr h.blocks = some old) := by
  refine ⟨?_, fun _ => hold⟩
  intro h2 a2 hres
  simp only [Heap.resize, hold] at hres
  split at hres
  · exact absurd hres (by simp)
  · simp only [Option.some.injEq, Prod.mk.injEq] at hres
    obtain ⟨hh2, ha2⟩ := hres
    have hmin : (List.take (c * s) old).length = min (c * s) old.length :=
      List.length_take (c * s) old
    refine ⟨old.take (c * s) ++ List.replicate (c * s - old.length) 0,
      ?_, ?_, ?_, ?_⟩
    · rw [← hh2, ← ha2]
      simp [List.lookup]
    · simp only [List.length_append, List.length_replicate, hmin]
      omega
    · intro i hi
      rw [List.getElem?_append_left (by rw [hmin]; omega)]
      exact List.getElem?_take_of_lt (by omega)
    · intro i h1 h2i
      rw [List.getElem?_append_right (by rw [hmin]; omega)]
      rw [hmin]
      simp only [List.getElem?_replicate]
      rw [if_pos (by omega)]

/-- Witness for C5: a three-byte block [1, 2, 3] grown to five bytes
becomes [1, 2, 3, 0, 0] at a fresh address. -/
theorem heap_resize_preserves_content_witness :
    Heap.resize ⟨[(1, [1, 2, 3])], 2, 100, []⟩ 1 5 1 =
      some (⟨[(2, [1, 2, 3, 0, 0])], 3, 100, []⟩, 2) ∧
    List.lookup 1 (⟨[(1, [1, 2, 3])], 2, 100, []⟩ : Heap).blocks =
      some [1, 2, 3] ∧
    ((∀ h2 a2,
      Heap.resize ⟨[(1, [1, 2, 3])], 2, 100, []⟩ 1 5 1 = some (h2, a2) →
      ∃ newC, List.lookup a2 h2.blocks = some newC ∧
        newC.length = 5 * 1 ∧
        (∀ i, i < min ([1, 2, 3] : List Nat).length (5 * 1) →
          newC[i]? = [1, 2, 3][i]?) ∧
        (∀ i, ([1, 2, 3] : List Nat).length ≤ i → i < 5 * 1 →
          newC[i]? = some 0)) ∧
     (Heap.resize ⟨[(1, [1, 2, 3])], 2, 100, []⟩ 1 5 1 = none →
       List.lookup 1 (⟨[(1, [1, 2, 3])], 2, 100, []⟩ : Heap).blocks =
         some [1, 2, 3])) :=
  ⟨rfl, rfl,
   heap_resize_preserves_content ⟨[(1, [1, 2, 3])], 2, 100, []⟩ 1 5 1
     [1, 2, 3] rfl⟩

/-- Claim C6: every failing operation of the Arena and the
TrackedPointer (allocate or resize failing with OutOfMemory, and every
contract-violation error) hands back the heap and the component state
exactly as they were before the call. -/
theorem failing_operations_preserve_state (h : Heap) (a : Arena)
    (p : TrackedPointer) (addr c s : Nat) :
    (∀ e, (Arena.allocate h a c s).2.2 = Except.error e →
      (Arena.allocate h a c s).1 = h ∧ (Arena.allocate h a c s).2.1 = a) ∧
    (∀ e, (Arena.resize h a addr c s).2.2 = Except.error e →
      (Arena.resize h a addr c s).1 = h ∧
      (Arena.resize h a addr c s).2.1 = a) ∧
    (∀ e, (TrackedPointer.allocate h p c s).2.2 = Except.error e →
      (TrackedPointer.allocate h p c s).1 = h ∧
      (TrackedPointer.allocate h p c s).2.1 = p) ∧
    (∀ e, (TrackedPointer.resize h p c s).2.2 = Except.error e →
      (TrackedPointer.resize h p c s).1 = h ∧
      (TrackedPointer.resize h p c s).2.1 = p) ∧
    (∀ e, (TrackedPointer.increment_reference p).2 = Except.error e →
      (TrackedPointer.increment_reference p).1 = p) ∧
    (∀ e, (TrackedPointer.decrement_reference h p).2.2 = Except.error e →
      (TrackedPointer.decrement_reference h p).1 = h ∧
      (TrackedPointer.decrement_reference h p).2.1 = p) := by
  refine ⟨?_, ?_, ?_, ?_, ?_, ?_⟩
  · intro e he
    simp only [Arena.allocate] at he ⊢
    rcases hA : Heap.alloc h c s with _ | ⟨h2, a2⟩ <;> simp only [hA] at he ⊢
    · exact ⟨by trivial, by trivial⟩
    · exact absurd he (by simp)
  · intro e he
    simp only [Arena.resize] at he ⊢
    rcases hL : List.lookup addr a.tracked with _ | oldSize <;>
      simp only [hL] at he ⊢
    · exact ⟨by trivial, by trivial⟩
    · rcases hR : Heap.resize h addr c s with _ | ⟨h2, a2⟩ <;>
        simp only [hR] at he ⊢
      · exact ⟨by trivial, by trivial⟩
      · exact absurd he (by simp)
  · intro e he
    by_cases ha : p.addr ≠ 0
    · rw [TrackedPointer.allocate, if_pos ha]
      exact ⟨rfl, rfl⟩
    · rw [TrackedPointer.allocate, if_neg ha] at he ⊢
      rcases hA : Heap.alloc h c s with _ | ⟨h2, a2⟩ <;> simp only [hA] at he ⊢
      · exact ⟨by trivial, by trivial⟩
      · exact absurd he (by simp)
  · intro e he
    by_cases hc : p.count = 0
    · rw [TrackedPointer.resize, if_pos hc]
      exact ⟨rfl, rfl⟩
    · rw [TrackedPointer.resize, if_neg hc] at he ⊢
      rcases hR : Heap.resize h p.addr c s with _ | ⟨h2, a2⟩ <;>
        simp only [hR] at he ⊢
      · exact ⟨by trivial, by trivial⟩
      · exact absurd he (by simp)
  · intro e he
    by_cases hc : p.count = 0
    · rw [TrackedPointer.increment_reference, if_pos hc]
    · rw [TrackedPointer.increment_reference, if_neg hc] at he
      exact absurd he (by simp)
  · intro e he
    by_cases h0 : p.count = 0
    · rw [TrackedPointer.decrement_reference, if_pos h0]
      exact ⟨rfl, rfl⟩
    · by_cases h1 : p.count = 1
      · rw [TrackedPointer.decrement_reference, if_neg h0, if_pos h1] at he
        exact absurd he (by simp)
      · rw [TrackedPointer.decrement_reference, if_neg h0, if_neg h1] at he
        exact absurd he (by simp)

/-- Witness for C6: an arena allocation against an allocator of
capacity 0 fails with OutOfMemory and changes nothing. -/
theorem failing_operations_preserve_state_witness :
    (Arena.allocate ⟨[], 1, 0, []⟩ ⟨[], 0⟩ 1 1).2.2 =
      Except.error MemError.outOfMemory ∧
    (Arena.allocate ⟨[], 1, 0, []⟩ ⟨[], 0⟩ 1 1).1 = ⟨[], 1, 0, []⟩ ∧
    (Arena.allocate ⟨[], 1, 0, []⟩ ⟨[], 0⟩ 1 1).2.1 = ⟨[], 0⟩ :=
  ⟨rfl,
   (failing_operations_preserve_state ⟨[], 1, 0, []⟩ ⟨[], 0⟩ ⟨0, 0⟩ 0 1 1).1
     MemError.outOfMemory rfl⟩

/-- Claim C7: allocating on a TrackedPointer whose address is non-null
fails with AlreadyAllocated and changes nothing; allocating on a null
pointer, when it succeeds, sets a non-null address and a reference
count of 1. -/
theorem trackedPointer_allocate_contract (h : Heap) (p : TrackedPointer)
    (c s : Nat) :
    (p.addr ≠ 0 →
      TrackedPointer.allocate h p c s =
        (h, p, Except.error MemError.alreadyAllocated)) ∧
    (p.addr = 0 → 0 < h.nextAddr →
      ∀ h2 p2, TrackedPointer.allocate h p c s = (h2, p2, Except.ok ()) →
        p2.count = 1 ∧ p2.addr ≠ 0) := by
  constructor
  · intro ha
    rw [TrackedPointer.allocate, if_pos ha]
  · intro ha hn h2 p2 hok
    rw [TrackedPointer.allocate, if_neg (by simp [ha])] at hok
    rcases hA : Heap.alloc h c s with _ | ⟨h3, a3⟩ <;> simp only [hA] at hok
    · exact absurd hok (by simp)
    · simp only [Prod.mk.injEq] at hok
      rcases Heap.alloc_some hA with ⟨-, ha3⟩
      constructor
      · rw [← hok.2.1]
      · rw [← hok.2.1]
        show a3 ≠ 0
        omega

/-- Witness for C7: both branches at concrete inputs — a live pointer
rejects a second allocation; a fresh pointer ends at count 1 with a
non-null address. -/
theorem trackedPointer_allocate_contract_witness :
    ((⟨5, 2⟩ : TrackedPointer).addr ≠ 0 ∧
     TrackedPointer.allocate (Heap.init 10) ⟨5, 2⟩ 1 4 =
       (Heap.init 10, ⟨5, 2⟩, Except.error MemError.alreadyAllocated)) ∧
    ((⟨0, 0⟩ : TrackedPointer).addr = 0 ∧ 0 < (Heap.init 10).nextAddr ∧
     ((⟨1, 1⟩ : TrackedPointer).count = 1 ∧
      (⟨1, 1⟩ : TrackedPointer).addr ≠ 0)) :=
  ⟨⟨by decide,
    (trackedPointer_allocate_contract (Heap.init 10) ⟨5, 2⟩ 1 4).1 (by decide)⟩,
   rfl, Nat.one_pos,
   (trackedPointer_allocate_contract (Heap.init 10) ⟨0, 0⟩ 1 4).2 rfl
     Nat.one_pos ⟨[(1, List.replicate 4 0)], 2, 10, []⟩ ⟨1, 1⟩ rfl⟩

/-!
The build script `setup.py`, the one file under `src/`: option tables,
extension construction, and the `main` entry point.
-/

/-- A distutils Extension as `setup.py` uses it: module name, source
paths, include directories, and the compile/link argument lists that
`build_ext_options.build_options` assigns (empty until assigned). -/
structure Extension where
  name : String
  sources : List String
  include_dirs : List String
  extra_compile_args : List String
  extra_link_args : List String
deriving DecidableEq, Repr

/-- `compile_options` of `setup.py`: per-compiler compile flags, with
entries for msvc and for every other compiler. -/
def compile_options : List (String × List String) :=
  [("msvc", ["/Ox"]),
   ("other", ["-O3", "-Wno-strict-prototypes", "-Wno-unused-function"])]

/-- `link_options` of `setup.py`: per-compiler link flags, both empty. -/
def link_options : List (String × List String) :=
  [("msvc", []), ("other", [])]

/-- Python `str.replace(old, new)` for a single-character pattern, as
`mod_name.replace('.', '/')` uses it. -/
def pyReplaceChar (old new : Char) : List Char → List Char
  | [] => []
  | c :: rest => (if c = old then new else c) :: pyReplaceChar old new rest

/-- `name_to_path` of `setup.py`:
the format string of `mod_name.replace('.', '/')`, a dot, and `ext`. -/
def name_to_path (mod_name ext : String) : String :=
  ⟨pyReplaceChar '.' '/' mod_name.data ++ ('.' :: ext.data)⟩

/-- `c_ext` of `setup.py`: an Extension over the single source path
computed by `name_to_path`. -/
def c_ext (mod_name language : String) (includes : List String) : Extension :=
  ⟨mod_name, [name_to_path mod_name language], includes, [], []⟩

/-- The c_type selection of `build_ext_options.build_options`: the
compiler type itself when it is a key of compile_options, else "other"
when that is a key, else None. -/
def c_type_of (compiler_type : String) : Option String :=
  if (List.lookup compiler_type compile_options).isSome then
    some compiler_type
  else if (List.lookup "other" compile_options).isSome then some "other"
  else none

/-- The l_type selection of `build_ext_options.build_options`, same
shape over link_options. -/
def l_type_of (compiler_type : String) : Option String :=
  if (List.lookup compiler_type link_options).isSome then
    some compiler_type
  else if (List.lookup "other" link_options).isSome then some "other"
  else none

/-- `build_ext_options.build_options`: when c_type is not None, assigns
the selected compile flags to every extension; then the same for
l_type and the link flags. -/
def build_options (compiler_type : String) (exts : List Extension) :
    List Extension :=
  let exts1 :=
    match c_type_of compiler_type with
    | none => exts
    | some t => exts.map (fun e =>
        { e with
          extra_compile_args := (List.lookup t compile_options).getD [] })
  match l_type_of compiler_type with
  | none => exts1
  | some t => exts1.map (fun e =>
      { e with extra_link_args := (List.lookup t link_options).getD [] })

theorem pyReplaceChar_eq_map (old new : Char) (l : List Char) :
    pyReplaceChar old new l = l.map (fun c => if c = old then new else c) := by
  induction l with
  | nil => rfl
  | cons c rest ih => simp [pyReplaceChar, ih]

/-- Claim C8: name_to_path returns mod_name with every dot replaced by
a slash, followed by a single dot and then the extension; consequently
c_ext constructs an Extension whose single source path is that
string. -/
theorem name_to_path_spec (mod_name ext : String) :
    (name_to_path mod_name ext).data =
      mod_name.data.map (fun c => if c = '.' then '/' else c) ++
        ('.' :: ext.data) ∧
    ∀ language includes,
      (c_ext mod_name language includes).sources =
        [name_to_path mod_name language] := by
  constructor
  · show pyReplaceChar '.' '/' mod_name.data ++ ('.' :: ext.data) =
      mod_name.data.map (fun c => if c = '.' then '/' else c) ++
        ('.' :: ext.data)
    rw [pyReplaceChar_eq_map]
  · intro language includes
    rfl

/-- Claim C9: both option tables always select an entry — the msvc one
exactly when the compiler type is "msvc" and the "other" one otherwise
— so the branch that would leave c_type or l_type as None and skip the
assignment is unreachable, and build_options assigns both argument
lists to every extension. -/
theorem build_options_spec (compiler_type : String) (exts : List Extension) :
    (c_type_of compiler_type).isSome = true ∧
    (l_type_of compiler_type).isSome = true ∧
    build_options compiler_type exts =
      exts.map (fun e =>
        { e with
          extra_compile_args :=
            if compiler_type = "msvc" then ["/Ox"]
            else ["-O3", "-Wno-strict-prototypes", "-Wno-unused-function"],
          extra_link_args := [] }) := by
  by_cases hm : compiler_type = "msvc"
  · subst hm
    refine ⟨rfl, rfl, ?_⟩
    have hc : c_type_of "msvc" = some "msvc" := rfl
    have hlc : l_type_of "msvc" = some "msvc" := rfl
    simp only [build_options, hc, hlc]
    rw [List.map_map]
    congr 1
  · by_cases ho : compiler_type = "other"
    · subst ho
      refine ⟨rfl, rfl, ?_⟩
      have hc : c_type_of "other" = some "other" := rfl
      have hlc : l_type_of "other" = some "other" := rfl
      simp only [build_options, hc, hlc]
      rw [List.map_map]
      congr 1
    · have hbm : (compiler_type == "msvc") = false :=
        beq_eq_false_iff_ne.mpr hm
      have hbo : (compiler_type == "other") = false :=
        beq_eq_false_iff_ne.mpr ho
      have hl : List.lookup compiler_type compile_options = none := by
        simp only [compile_options, List.lookup, hbm, hbo]
      have hl2 : List.lookup compiler_type link_options = none := by
        simp only [link_options, List.lookup, hbm, hbo]
      have hc : c_type_of compiler_type = some "other" := by
        rw [c_type_of, hl]
        rfl
      have hlc : l_type_of compiler_type = some "other" := by
        rw [l_type_of, hl2]
        rfl
      refine ⟨by rw [hc]; rfl, by rw [hlc]; rfl, ?_⟩
      simp only [build_options, hc, hlc]
      rw [List.map_map]
      congr 1
      funext e
      rw [if_neg hm]
      cases e
      rfl

/-- The observable outcome of a `main` run: which setup path was taken
and the configuration handed to it. -/
inductive SetupResult where
  | cython (mod_names : List String) (language : String)
      (includes : List String)
  | plain (exts : List Extension)
deriving DecidableEq, Repr

/-- Python `os.path.join` for the one two-component use in `main`. -/
def pathJoin (a b : String) : String := a ++ "/" ++ b

namespace SetupPy

set_option linter.unusedVariables false in
/-- `main` of `setup.py`, with the module-level global `use_cython` and
the interpreter value `sys.prefix` passed explicitly; the `is_pypy`
parameter is kept exactly as in the source, where no branch reads it. -/
def main (modules : List String) (is_pypy : Bool) (use_cython : Bool)
    (sysPrefix : String) : SetupResult :=
  let language := "c"
  let includes := [".", pathJoin sysPrefix "include"]
  if use_cython then SetupResult.cython modules language includes
  else SetupResult.plain (modules.map (fun mn => c_ext mn language includes))

end SetupPy

/-- Claim C10: the result of main does not depend on its is_pypy
argument — two calls with the same modules list, the same use_cython
flag and the same interpreter state take the same branch and produce
the same setup configuration. -/
theorem main_ignores_is_pypy (modules : List String) (p1 p2 : Bool)
    (use_cython : Bool) (sysPrefix : String) :
    SetupPy.main modules p1 use_cython sysPrefix =
      SetupPy.main modules p2 use_cython sysPrefix := rfl
